import Mathlib

/-!
# WarpCustomVM receive example

A shallow embedding of `vms/example/warpcustomvm/examples/receive_example.go`
(`main`, `showHexConversion`, `showMessageIDComputation`) together with the
library routines it calls, and of the message codec, signature verifier and
receipt store described by the design specification.

Go strings are byte sequences; they are represented by `String` values and
turned into bytes by `goBytes` (UTF-8).  Bytes and machine integers are
natural numbers.  The standard output of the program is a list of events, one
per `fmt.Println` / `fmt.Printf` call, each carrying the text written.
-/

namespace WarpReceiveExample

/-! ## Go runtime and standard library -/

/-- UTF-8 encoding of one code point, as bytes. -/
def utf8EncodeChar (c : Nat) : List Nat :=
  if c < 0x80 then [c]
  else if c < 0x800 then [0xC0 + c / 64, 0x80 + c % 64]
  else if c < 0x10000 then [0xE0 + c / 4096, 0x80 + c / 64 % 64, 0x80 + c % 64]
  else [0xF0 + c / 262144, 0x80 + c / 4096 % 64, 0x80 + c / 64 % 64, 0x80 + c % 64]

/-- The conversion `[]byte(s)`: the bytes of a Go string. -/
def goBytes (s : String) : List Nat :=
  s.toList.flatMap (fun c => utf8EncodeChar c.toNat)

/-- The conversion `string(b)` for a byte slice holding ASCII text, which is
what `%s` writes for a `[]byte` argument. -/
def goString (bs : List Nat) : String :=
  String.mk (bs.map Char.ofNat)

/-- The builtin `len(s)` of a Go string: its number of bytes. -/
def goLen (s : String) : Nat :=
  s.utf8ByteSize

/-- The simple slice expression `s[:hi]` on a string.  Indices count bytes;
the expression is in range when `hi ≤ len(s)` and panics at run time
otherwise (`none`). -/
def sliceTo (s : String) (hi : Nat) : Option String :=
  if hi ≤ goLen s then some (s.extract 0 ⟨hi⟩) else none

/-- The table `hextable` of `encoding/hex`. -/
def hextable : List Char := "0123456789abcdef".toList

/-- The function `hex.EncodeToString`: two table characters per byte, high
nibble (`v >> 4`) first, then low nibble (`v & 0x0f`). -/
def hexEncodeToString (src : List Nat) : String :=
  String.mk (src.flatMap (fun v => [hextable.getD (v / 16) '0', hextable.getD (v % 16) '0']))

/-- The function `fromHexChar` of `encoding/hex`. -/
def fromHexChar (c : Char) : Option Nat :=
  if '0' ≤ c ∧ c ≤ '9' then some (c.toNat - '0'.toNat)
  else if 'a' ≤ c ∧ c ≤ 'f' then some (c.toNat - 'a'.toNat + 10)
  else if 'A' ≤ c ∧ c ≤ 'F' then some (c.toNat - 'A'.toNat + 10)
  else none

/-- The decoding loop of `hex.Decode`, on the characters of the input. -/
def hexDecodeChars : List Char → Option (List Nat)
  | [] => some []
  | [_] => none
  | a :: b :: rest =>
    match fromHexChar a, fromHexChar b, hexDecodeChars rest with
    | some x, some y, some tl => some ((x * 16 + y) :: tl)
    | _, _, _ => none

/-- The function `hex.DecodeString`; `none` stands for `ErrLength` or
`InvalidByteError`. -/
def hexDecodeString (s : String) : Option (List Nat) :=
  hexDecodeChars s.toList

/-! ## Program events -/

/-- The methods of the API client that the example refers to. -/
inductive ClientMethod where
  | GetChainID
  | ReceiveWarpMessage
  | SubmitMessage
  deriving DecidableEq, Repr

/-- One observable action of the program. -/
inductive Event where
  /-- Text written to standard output by one `fmt` call. -/
  | stdout (text : String)
  /-- Message handed to `log.Printf` (the logger adds its own time prefix). -/
  | logged (text : String)
  /-- A method call on the API client. -/
  | call (m : ClientMethod)
  deriving DecidableEq, Repr

/-- The call `fmt.Println(s)` with one string argument. -/
def println (s : String) : Event :=
  Event.stdout (s ++ "\n")

/-- The call `fmt.Println()` without arguments. -/
def printlnEmpty : Event :=
  Event.stdout "\n"

/-- How a run of `main` ends. -/
inductive Outcome where
  | returned
  | panicked
  deriving DecidableEq, Repr

/-- A run: the events in program order and the way the run ended. -/
structure Run where
  events : List Event
  outcome : Outcome
  deriving DecidableEq, Repr

/-- The reply structure of `client.GetChainID`, with the chain ID in the form
`%s` prints it. -/
structure ChainInfo where
  ChainID : String
  NetworkID : Nat
  deriving DecidableEq, Repr

/-- The client calls of an event list, in order. -/
def clientCalls : List Event → List ClientMethod
  | [] => []
  | Event.call m :: es => m :: clientCalls es
  | _ :: es => clientCalls es

/-- The standard-output text of an event list, concatenated. -/
def stdoutText : List Event → String
  | [] => ""
  | Event.stdout t :: es => t ++ stdoutText es
  | _ :: es => stdoutText es

/-! ## `encoding/json` for a struct of scalar fields -/

/-- The field values that occur in `ExampleWarpMessage`. -/
inductive JSONValue where
  /-- An unsigned integer field (`uint32`). -/
  | number (n : Nat)
  /-- A string field. -/
  | string (s : String)
  deriving DecidableEq, Repr

/-- The escaping of one character inside a JSON string, as `encoding/json`
does with HTML escaping on (the default of `Marshal`). -/
def jsonEscapeChar (c : Char) : List Char :=
  if c = '"' then ['\\', '"']
  else if c = '\\' then ['\\', '\\']
  else if c = '\x08' then ['\\', 'b']
  else if c = '\x0c' then ['\\', 'f']
  else if c = '\n' then ['\\', 'n']
  else if c = '\r' then ['\\', 'r']
  else if c = '\t' then ['\\', 't']
  else if c.toNat < 0x20 ∨ c = '<' ∨ c = '>' ∨ c = '&' then
    ['\\', 'u', '0', '0', hextable.getD (c.toNat / 16) '0', hextable.getD (c.toNat % 16) '0']
  else if c.toNat = 0x2028 ∨ c.toNat = 0x2029 then
    ['\\', 'u', '2', '0', '2', hextable.getD (c.toNat % 16) '0']
  else [c]

/-- A quoted JSON string. -/
def jsonQuote (s : String) : String :=
  String.mk ('"' :: (s.toList.flatMap jsonEscapeChar ++ ['"']))

/-- The encoding of a field value. -/
def encodeValue : JSONValue → String
  | JSONValue.number n => toString n
  | JSONValue.string s => jsonQuote s

/-- The members of an indented object: `"key": value`, each on a line of its
own that starts with the prefix and one level of indentation, separated by
commas. -/
def indentMembers (pfx indent : String) : List (String × JSONValue) → String
  | [] => ""
  | [(k, v)] => "\n" ++ pfx ++ indent ++ jsonQuote k ++ ": " ++ encodeValue v
  | (k, v) :: rest =>
    "\n" ++ pfx ++ indent ++ jsonQuote k ++ ": " ++ encodeValue v ++ "," ++
      indentMembers pfx indent rest

/-- The function `json.MarshalIndent(v, prefix, indent)` on a struct value
given by its fields in declaration order, each with its `json` tag.  The first
line carries no prefix; an object without members is `{}`.  No field type here
(unsigned integer, string) has a failing encoder, so the error is always
nil. -/
def marshalIndent (fields : List (String × JSONValue)) (pfx indent : String) :
    Except String String :=
  match fields with
  | [] => Except.ok "\x7b\x7d"
  | _ => Except.ok ("\x7b" ++ indentMembers pfx indent fields ++ "\n" ++ pfx ++ "\x7d")

/-- The local type `ExampleWarpMessage` of `showMessageIDComputation`. -/
structure ExampleWarpMessage where
  NetworkID : Nat
  SourceChainID : String
  Payload : String
  deriving DecidableEq, Repr

/-- The fields of `ExampleWarpMessage` with their `json` tags. -/
def ExampleWarpMessage.fields (m : ExampleWarpMessage) : List (String × JSONValue) :=
  [("networkID", JSONValue.number m.NetworkID),
   ("sourceChainID", JSONValue.string m.SourceChainID),
   ("payload", JSONValue.string m.Payload)]

/-! ## The helper functions of the example -/

/-- The variable `exampleBytes` of `showHexConversion`. -/
def exampleBytes : List Nat :=
  goBytes "Hello from C-Chain!"

/-- The variable `hexEncoded` of `showHexConversion`. -/
def hexEncoded : String :=
  hexEncodeToString exampleBytes

/-- The function `showHexConversion`. -/
def showHexConversion : List Event :=
  [println "Hex Conversion:",
   println "---------------",
   Event.stdout ("Text: " ++ goString exampleBytes ++ "\n"),
   Event.stdout ("Hex:  0x" ++ hexEncoded ++ "\n\n")]

/-- The variable `example` of `showMessageIDComputation`. -/
def exampleMessage : ExampleWarpMessage :=
  { NetworkID := 5
    SourceChainID := "yH8D7ThNJkxmtkuv2jgBa4P1Rn3Qpr4pPr7QYNfcdoS6k6HWp"
    Payload := "0x..." }

/-- The result pair of `json.MarshalIndent(example, "  ", "  ")`. -/
def exampleMarshal : Except String String :=
  marshalIndent exampleMessage.fields "  " "  "

/-- The variable `exampleJSON`: the first result, the error being dropped
(an error would leave it empty). -/
def exampleJSON : String :=
  match exampleMarshal with
  | Except.ok text => text
  | Except.error _ => ""

/-- The function `showMessageIDComputation`. -/
def showMessageIDComputation : List Event :=
  [println "Message ID Computation:",
   println "-----------------------",
   println "Message ID = SHA256(unsigned_warp_message_bytes)",
   println "This ensures unique identification of each message",
   printlnEmpty,
   Event.stdout ("Example unsigned message structure:\n" ++ exampleJSON ++ "\n"),
   printlnEmpty]

/-! ## SHA-256 (`crypto/sha256`) -/

/-- Big-endian bytes of `n`, `width` of them. -/
def bigEndian : Nat → Nat → List Nat
  | 0, _ => []
  | w + 1, n => (n / 256 ^ w) % 256 :: bigEndian w n

/-- The number a big-endian byte sequence stands for. -/
def fromBigEndian (bs : List Nat) : Nat :=
  bs.foldl (fun acc b => acc * 256 + b) 0

/-- The round constants `_K`. -/
def sha256K : List Nat :=
  [0x428a2f98, 0x71374491, 0xb5c0fbcf, 0xe9b5dba5, 0x3956c25b, 0x59f111f1, 0x923f82a4, 0xab1c5ed5,
   0xd807aa98, 0x12835b01, 0x243185be, 0x550c7dc3, 0x72be5d74, 0x80deb1fe, 0x9bdc06a7, 0xc19bf174,
   0xe49b69c1, 0xefbe4786, 0x0fc19dc6, 0x240ca1cc, 0x2de92c6f, 0x4a7484aa, 0x5cb0a9dc, 0x76f988da,
   0x983e5152, 0xa831c66d, 0xb00327c8, 0xbf597fc7, 0xc6e00bf3, 0xd5a79147, 0x06ca6351, 0x14292967,
   0x27b70a85, 0x2e1b2138, 0x4d2c6dfc, 0x53380d13, 0x650a7354, 0x766a0abb, 0x81c2c92e, 0x92722c85,
   0xa2bfe8a1, 0xa81a664b, 0xc24b8b70, 0xc76c51a3, 0xd192e819, 0xd6990624, 0xf40e3585, 0x106aa070,
   0x19a4c116, 0x1e376c08, 0x2748774c, 0x34b0bcb5, 0x391c0cb3, 0x4ed8aa4a, 0x5b9cca4f, 0x682e6ff3,
   0x748f82ee, 0x78a5636f, 0x84c87814, 0x8cc70208, 0x90befffa, 0xa4506ceb, 0xbef9a3f7, 0xc67178f2]

/-- The initial hash value. -/
def sha256Init : List Nat :=
  [0x6a09e667, 0xbb67ae85, 0x3c6ef372, 0xa54ff53a,
   0x510e527f, 0x9b05688c, 0x1f83d9ab, 0x5be0cd19]

/-- Rotation of a 32-bit word to the right. -/
def rotr32 (x n : Nat) : Nat :=
  (x >>> n) ||| ((x <<< (32 - n)) % 2 ^ 32)

/-- One step of the message schedule: the next word from the words so far. -/
def sha256ScheduleStep (w : List Nat) : List Nat :=
  let n := w.length
  let v1 := w.getD (n - 2) 0
  let t1 := (rotr32 v1 17 ^^^ rotr32 v1 19) ^^^ (v1 >>> 10)
  let v2 := w.getD (n - 15) 0
  let t2 := (rotr32 v2 7 ^^^ rotr32 v2 18) ^^^ (v2 >>> 3)
  w ++ [(t1 + w.getD (n - 7) 0 + t2 + w.getD (n - 16) 0) % 2 ^ 32]

/-- The 64 schedule words of a 64-byte block. -/
def sha256Schedule (block : List Nat) : List Nat :=
  Nat.iterate sha256ScheduleStep 48
    ((List.range 16).map (fun i => fromBigEndian ((block.drop (4 * i)).take 4)))

/-- One round on the working variables `[a, b, c, d, e, f, g, h]`, with
round constant `k` and schedule word `w`. -/
def sha256Round (s : List Nat) (kw : Nat × Nat) : List Nat :=
  match s with
  | [a, b, c, d, e, f, g, h] =>
    let t1 := (h + ((rotr32 e 6 ^^^ rotr32 e 11) ^^^ rotr32 e 25) +
      ((e &&& f) ^^^ ((e ^^^ 0xffffffff) &&& g)) + kw.1 + kw.2) % 2 ^ 32
    let t2 := (((rotr32 a 2 ^^^ rotr32 a 13) ^^^ rotr32 a 22) +
      (((a &&& b) ^^^ (a &&& c)) ^^^ (b &&& c))) % 2 ^ 32
    [(t1 + t2) % 2 ^ 32, a, b, c, (d + t1) % 2 ^ 32, e, f, g]
  | _ => s

/-- The compression of one block into the hash value. -/
def sha256Block (h : List Nat) (block : List Nat) : List Nat :=
  let r := (sha256K.zip (sha256Schedule block)).foldl sha256Round h
  List.zipWith (fun x y => (x + y) % 2 ^ 32) h r

/-- Padding: a `0x80` byte, zero bytes up to 56 modulo 64, and the bit length
in 8 big-endian bytes. -/
def sha256Pad (msg : List Nat) : List Nat :=
  msg ++ 0x80 :: (List.replicate ((119 - msg.length % 64) % 64) 0 ++
    bigEndian 8 (8 * msg.length))

/-- The compression of `count` consecutive blocks. -/
def sha256Blocks : Nat → List Nat → List Nat → List Nat
  | 0, _, h => h
  | count + 1, data, h => sha256Blocks count (data.drop 64) (sha256Block h (data.take 64))

/-- The function `sha256.Sum256`: the 32-byte digest. -/
def sha256 (msg : List Nat) : List Nat :=
  let padded := sha256Pad msg
  (sha256Blocks (padded.length / 64) padded sha256Init).flatMap (bigEndian 4)

/-! ## Base 58 and CB58 identifiers -/

/-- The Bitcoin base-58 alphabet. -/
def base58Alphabet : List Char :=
  "123456789ABCDEFGHJKLMNPQRSTUVWXYZabcdefghijkmnopqrstuvwxyz".toList

/-- The digits of `n` in base 58, most significant first, `width` of them. -/
def base58Digits : Nat → Nat → List Nat
  | 0, _ => []
  | w + 1, n => (n / 58 ^ w) % 58 :: base58Digits w n

/-- The function `base58.Encode`: one `1` per leading zero byte, then the
base-58 digits of the number the bytes stand for. -/
def base58Encode (bs : List Nat) : String :=
  let zeros := (bs.takeWhile (fun b => b == 0)).length
  let digits := (base58Digits (2 * bs.length) (fromBigEndian bs)).dropWhile (fun d => d == 0)
  String.mk (List.replicate zeros '1' ++ digits.map (fun d => base58Alphabet.getD d '1'))

/-- The value of the characters of a base-58 text, `none` on a character that
is not in the alphabet. -/
def base58Value : List Char → Nat → Option Nat
  | [], acc => some acc
  | c :: cs, acc =>
    match base58Alphabet.indexOf? c with
    | some d => base58Value cs (acc * 58 + d)
    | none => none

/-- The function `base58.Decode`: fails on the empty string and on a
character outside the alphabet; one zero byte per leading `1`, then the bytes
of the number. -/
def base58Decode (s : String) : Except String (List Nat) :=
  let cs := s.toList
  if cs.isEmpty then Except.error "zero length string"
  else match base58Value cs 0 with
    | none => Except.error "invalid base58 digit"
    | some n =>
      let zeros := (cs.takeWhile (fun c => c == '1')).length
      Except.ok (List.replicate zeros 0 ++ (bigEndian cs.length n).dropWhile (fun b => b == 0))

/-- The length of the checksum of a CB58 text. -/
def checksumLen : Nat := 4

/-- Modelled from the spec: `hashing.Checksum` is not among the sources; it is
the last `length` bytes of the SHA-256 digest. -/
def hashingChecksum (bs : List Nat) (length : Nat) : List Nat :=
  let hash := sha256 bs
  hash.drop (hash.length - length)

/-- Modelled from the spec: `cb58.Encode` is not among the sources; it is the
base-58 text of the bytes followed by their checksum. -/
def cb58Encode (bs : List Nat) : String :=
  base58Encode (bs ++ hashingChecksum bs checksumLen)

/-- Modelled from the spec: `cb58.Decode` is not among the sources; it
decodes the base-58 text, then splits the checksum off and verifies it. -/
def cb58Decode (s : String) : Except String (List Nat) :=
  match base58Decode s with
  | Except.error e => Except.error e
  | Except.ok decoded =>
    if decoded.length < checksumLen then Except.error "input string is smaller than the checksum size"
    else
      let rawBytes := decoded.take (decoded.length - checksumLen)
      let checksum := decoded.drop (decoded.length - checksumLen)
      if checksum = hashingChecksum rawBytes checksumLen then Except.ok rawBytes
      else Except.error "invalid input checksum"

/-- Modelled from the spec: `ids.Empty` is not among the sources; it is the
all-zero 32-byte identifier. -/
def idsEmpty : List Nat :=
  List.replicate 32 0

/-- Modelled from the spec: `ids.FromString` is not among the sources.  The
spec describes identifiers as textual, fixed-alphabet encodings of 32-byte
values; in this code base that encoding is CB58 (base 58 over the Bitcoin
alphabet of the bytes followed by the last four bytes of their SHA-256
digest), and the decoded value must be exactly 32 bytes long.  On failure the
identifier returned next to the error is the all-zero one. -/
def idsFromString (idStr : String) : List Nat × Option String :=
  match cb58Decode idStr with
  | Except.error e => (idsEmpty, some e)
  | Except.ok bytes =>
    if bytes.length = 32 then (bytes, none)
    else (idsEmpty, some "invalid hash length")

/-- Modelled from the spec: the method `ids.ID.String`, by which `%s` formats
an identifier, is not among the sources; it is the CB58 text of the 32
bytes. -/
def idString (id : List Nat) : String :=
  cb58Encode id

/-! ## The function `main` -/

/-- The variable `blockchainID` of `main`. -/
def blockchainID : String :=
  "2EcxPo6BHr9xPcHrjLSgHLzzMtPVuKaKzWvSPDGJQgLkFxUzRQ"

/-- The variable `exampleSignedMessage` of `main`. -/
def exampleSignedMessage : String :=
  "0x..."

/-- The statements of `main` from its first `fmt.Println` to the first
`fmt.Printf` of Example 1: everything written before the arguments of the
second `fmt.Printf` are evaluated. -/
def mainBanner : List Event :=
  [println "=== WarpCustomVM - Receive Messages Example ===\n",
   println "Example 1: Receive Warp Message from C-Chain",
   println "---------------------------------------------",
   println "Note: This is typically done by the ICM relayer automatically.",
   println "Here's an example of the API call structure:\n",
   Event.stdout "Sample receiveWarpMessage call with signed message:\n"]

/-- The second `fmt.Printf` of Example 1, given the value of the slice
expression. -/
def printSignedMessage (truncated : String) : Event :=
  Event.stdout ("  signedMessage: " ++ truncated ++ " (truncated)\n\n")

/-- Example 2 and the heading of Example 3. -/
def mainExample2 : List Event :=
  [println "Example 2: Get All Received Messages",
   println "-------------------------------------",
   println "JSON-RPC Call:",
   println "\x7b\n  \"jsonrpc\": \"2.0\",\n  \"id\": 1,\n  \"method\": \"warpcustomvm.getAllReceivedMessages\",\n  \"params\": \x7b\x7d\n\x7d",
   printlnEmpty,
   println "Example 3: Get Chain Information",
   println "---------------------------------"]

/-- The `if err != nil` statement after `client.GetChainID(ctx)`, given what
the call returned: an error (its message) or the chain information. -/
def chainIDBranch : Except String ChainInfo → List Event
  | Except.error err =>
    [Event.logged ("⚠️  Failed to get chain ID: " ++ err ++ "\n")]
  | Except.ok chainInfo =>
    [Event.stdout "✓ Chain information retrieved:\n",
     Event.stdout ("  Chain ID: " ++ chainInfo.ChainID ++ "\n"),
     Event.stdout ("  Network ID: " ++ toString chainInfo.NetworkID ++ "\n\n")]

/-- The variable `exampleMessageID` of `main`: the first result of
`ids.FromString`, the error being dropped. -/
def exampleMessageID : List Nat :=
  (idsFromString "2HgU68fXLffrsXimkrSP4rmtSgEsbaCCNAvnH25JKCkQVXU1N1").1

/-- The variable `cChainID` of `main`. -/
def cChainID : String :=
  "yH8D7ThNJkxmtkuv2jgBa4P1Rn3Qpr4pPr7QYNfcdoS6k6HWp"

/-- The variable `destinationAddress` of `main`. -/
def destinationAddress : String :=
  "0x772eb420B677F0c42Dc1aC503D03E02E92ae1502"

/-- The variable `message` of `main`. -/
def message : String :=
  "Reply from WarpCustomVM!"

/-- Examples 4, 5 and 6. -/
def mainExamples4to6 : List Event :=
  [println "Example 4: Get Specific Received Message",
   println "-----------------------------------------",
   println "First get message IDs from getAllReceivedMessages,",
   println "then query individual messages by ID.\n",
   Event.stdout "Sample getReceivedMessage call:\n",
   Event.stdout ("  messageID: " ++ idString exampleMessageID ++ "\n\n"),
   println "Example 5: Send Message to C-Chain (for comparison)",
   println "----------------------------------------------------",
   Event.stdout "Sending message to C-Chain:\n",
   Event.stdout ("  Destination: " ++ cChainID ++ "\n"),
   Event.stdout ("  Address: " ++ destinationAddress ++ "\n"),
   Event.stdout ("  Message: " ++ message ++ "\n\n"),
   println "Example 6: Understanding Signed Warp Messages",
   println "----------------------------------------------",
   println "A signed Warp message contains:",
   println "  1. Unsigned message (network ID, source chain, payload)",
   println "  2. BLS aggregate signature from validators",
   println "  3. Bitset indicating which validators signed",
   printlnEmpty,
   println "The payload contains an AddressedCall with:",
   println "  - Source address (sender on C-Chain)",
   println "  - Teleporter message (ABI-encoded payload)",
   printlnEmpty]

/-- The workflow section. -/
def mainWorkflow : List Event :=
  [println "\n=== Complete Workflow: C-Chain → WarpCustomVM ===\n",
   println "1. Deploy WarpMessageSender.sol on C-Chain Fuji",
   println "   - Teleporter: 0x253b2784c75e510dD0fF1da844684a1aC0aa5fcf",
   printlnEmpty,
   println "2. Send message from C-Chain:",
   println "   senderContract.sendMessage(",
   Event.stdout ("     \"" ++ blockchainID ++ "\",  // WarpCustomVM blockchain ID\n"),
   println "     \"0x0200000000000000000000000000000000000005\",  // Warp precompile",
   println "     \"Hello from C-Chain!\"",
   println "   )",
   printlnEmpty,
   println "3. ICM Relayer:",
   println "   - Detects message on C-Chain",
   println "   - Collects validator signatures",
   println "   - Calls warpcustomvm.receiveWarpMessage",
   printlnEmpty,
   println "4. Query received messages:",
   println "   - getAllReceivedMessages() - List all",
   println "   - getReceivedMessage(id) - Get details",
   printlnEmpty]

/-- The helper section and the closing lines. -/
def mainHelpers : List Event :=
  [println "\n=== Helper Functions ===\n"] ++
  showHexConversion ++
  showMessageIDComputation ++
  [println "\nFor more examples, see:",
   println "  - RECEIVING_MESSAGES.md",
   println "  - examples/receive_examples.sh",
   println "  - contracts/WarpMessageSender.sol"]

/-- The statements of `main` after the `if err != nil` statement of Example 3;
none of them reads `chainInfo` or `err`. -/
def mainAfterChainID : List Event :=
  mainExamples4to6 ++ mainWorkflow ++ mainHelpers

/-- The statements of `main` from Example 2 to the end, given what
`client.GetChainID` returns when it is called. -/
def mainFromExample2 (getChainID : Except String ChainInfo) : List Event :=
  mainExample2 ++ Event.call ClientMethod.GetChainID :: chainIDBranch getChainID ++
    mainAfterChainID

/-- The function `main`, given what `client.GetChainID` returns when it is
called.  `api.NewClient` and `context.Background` only build values.  The
slice expression `exampleSignedMessage[:20]` is evaluated before the
`fmt.Printf` that takes it; when it is out of range the run panics there. -/
def main (getChainID : Except String ChainInfo) : Run :=
  match sliceTo exampleSignedMessage 20 with
  | none => { events := mainBanner, outcome := Outcome.panicked }
  | some truncated =>
    { events := mainBanner ++ printSignedMessage truncated :: mainFromExample2 getChainID
      outcome := Outcome.returned }

/-- The function `main` with the value assigned to `exampleSignedMessage` on
line 33 as a parameter; `main` is `mainWith exampleSignedMessage`. -/
def mainWith (sample : String) (getChainID : Except String ChainInfo) : Run :=
  match sliceTo sample 20 with
  | none => { events := mainBanner, outcome := Outcome.panicked }
  | some truncated =>
    { events := mainBanner ++ printSignedMessage truncated :: mainFromExample2 getChainID
      outcome := Outcome.returned }

/-! ## Canonical message codec -/

/-- The unsigned message of the data model: `networkID` is a `uint32`,
`sourceChainID` a 32-byte identifier, `payload` a byte sequence. -/
structure UnsignedMessage where
  networkID : Nat
  sourceChainID : List Nat
  payload : List Nat
  deriving DecidableEq, Repr

/-- A valid unsigned message: the network ID fits 32 bits, the source chain ID
is 32 bytes, the payload is a byte sequence whose length fits the 32-bit
length prefix. -/
def UnsignedMessage.Valid (m : UnsignedMessage) : Prop :=
  m.networkID < 2 ^ 32 ∧ m.sourceChainID.length = 32 ∧ (∀ b ∈ m.sourceChainID, b < 256) ∧
    m.payload.length < 2 ^ 32 ∧ ∀ b ∈ m.payload, b < 256

instance (m : UnsignedMessage) : Decidable m.Valid := by
  unfold UnsignedMessage.Valid
  infer_instance

/-- The error of the codec. -/
inductive CodecError where
  | MalformedMessage
  deriving DecidableEq, Repr

/-- Modelled from the spec: the codec is not among the sources.  `Encode`
writes the fields in fixed order, integers at fixed width and the variable
field behind its length: the network ID in 4 big-endian bytes, the 32 bytes of
the source chain ID, the payload length in 4 big-endian bytes, the payload. -/
def Encode (m : UnsignedMessage) : List Nat :=
  bigEndian 4 m.networkID ++ (m.sourceChainID ++ (bigEndian 4 m.payload.length ++ m.payload))

/-- Modelled from the spec: the codec is not among the sources.  `Decode`
reads what `Encode` writes and fails with `MalformedMessage` when the input
ends before the fixed fields or the announced payload are complete, or when
bytes follow the announced payload. -/
def Decode (bs : List Nat) : Except CodecError UnsignedMessage :=
  if bs.length < 40 then Except.error CodecError.MalformedMessage
  else
    let payloadLen := fromBigEndian ((bs.drop 36).take 4)
    if (bs.drop 40).length < payloadLen then Except.error CodecError.MalformedMessage
    else if payloadLen < (bs.drop 40).length then Except.error CodecError.MalformedMessage
    else Except.ok
      { networkID := fromBigEndian (bs.take 4)
        sourceChainID := (bs.drop 4).take 32
        payload := bs.drop 40 }

/-! ## Signature verifier -/

/-- A validator of the snapshot: public key and weight. -/
structure Validator where
  publicKey : List Nat
  weight : Nat
  deriving DecidableEq, Repr

/-- The validator-set snapshot of the data model. -/
structure ValidatorSet where
  validators : List Validator
  totalWeight : Nat
  deriving DecidableEq, Repr

/-- The signed message of the data model. -/
structure SignedMessage where
  unsigned : UnsignedMessage
  signature : List Nat
  signerBitset : List Bool
  deriving DecidableEq, Repr

/-- The rejection kinds of the verifier. -/
inductive VerifyError where
  | SizeMismatch
  | InsufficientWeight
  | InvalidSignature
  deriving DecidableEq, Repr

/-- The validators whose bit is set, in validator-set order. -/
def selectedValidators : List Bool → List Validator → List Validator
  | true :: bits, v :: vs => v :: selectedValidators bits vs
  | false :: bits, _ :: vs => selectedValidators bits vs
  | _, _ => []

/-- Modelled from the spec: step (b) of `Verify`, the sum of the weights of
the validators whose bit is set. -/
def verifiedWeight (bits : List Bool) (vs : List Validator) : Nat :=
  ((selectedValidators bits vs).map (fun v => v.weight)).sum

/-- Modelled from the spec: the verifier is not among the sources.  `Verify`
follows steps (a) to (e) of the design: size check, weight sum, quorum check
`verifiedWeight * quorumDenominator < totalWeight * quorumNumerator`, then the
aggregate-signature check over the selected keys and the encoded message.  The
BLS check itself is the parameter `blsVerify`. -/
def Verify (blsVerify : List (List Nat) → List Nat → List Nat → Bool)
    (sm : SignedMessage) (vs : ValidatorSet) (quorumNumerator quorumDenominator : Nat) :
    Except VerifyError Nat :=
  if sm.signerBitset.length ≠ vs.validators.length then Except.error VerifyError.SizeMismatch
  else
    let weight := verifiedWeight sm.signerBitset vs.validators
    if weight * quorumDenominator < vs.totalWeight * quorumNumerator then
      Except.error VerifyError.InsufficientWeight
    else if blsVerify ((selectedValidators sm.signerBitset vs.validators).map
        (fun v => v.publicKey)) (Encode sm.unsigned) sm.signature then
      Except.ok weight
    else Except.error VerifyError.InvalidSignature

/-- The quorum threshold: the least weight `w` with
`w * quorumDenominator ≥ totalWeight * quorumNumerator`, for a positive
denominator. -/
def quorumThreshold (totalWeight quorumNumerator quorumDenominator : Nat) : Nat :=
  (totalWeight * quorumNumerator + quorumDenominator - 1) / quorumDenominator

/-! ## Receipt store -/

/-- The record of the data model. -/
structure ReceivedMessageRecord where
  id : List Nat
  unsigned : UnsignedMessage
  receivedAt : Nat
  verifiedWeight : Nat
  deriving DecidableEq, Repr

/-- The state of the receipt store: its records in insertion order. -/
abbrev ReceiptStore := List ReceivedMessageRecord

/-- Modelled from the spec: the store is not among the sources.  `Get`
returns the record with the given MessageID, if there is one. -/
def Get (s : ReceiptStore) (id : List Nat) : Option ReceivedMessageRecord :=
  s.find? (fun x => x.id == id)

/-- Modelled from the spec: the store is not among the sources.  `TryInsert`
returns `false` and leaves the store as it is when a record with the same
MessageID exists, and otherwise appends the record and returns `true`. -/
def TryInsert (s : ReceiptStore) (r : ReceivedMessageRecord) : ReceiptStore × Bool :=
  match Get s r.id with
  | some _ => (s, false)
  | none => (s ++ [r], true)

/-- Modelled from the spec: `ListAll` returns the records in insertion
order. -/
def ListAll (s : ReceiptStore) : List ReceivedMessageRecord :=
  s

/-- The store after a sequence of `TryInsert` calls. -/
def insertAll (s : ReceiptStore) (rs : List ReceivedMessageRecord) : ReceiptStore :=
  rs.foldl (fun st r => (TryInsert st r).1) s

/-! ## What `showMessageIDComputation` writes -/

/-- The text that `showMessageIDComputation` writes to standard output. -/
def messageIDOutput : String :=
  stdoutText showMessageIDComputation

/-- The SHA-256 digest of the bytes of `exampleJSON`, the only serialized form
of the example message that `showMessageIDComputation` builds. -/
def exampleJSONDigest : List Nat :=
  sha256 (goBytes exampleJSON)

/-- A hexadecimal digit, of either case. -/
def isHexDigit (c : Char) : Bool :=
  (fromHexChar c).isSome

/-- The length of the longest run of consecutive elements satisfying `p`,
given the length of the run that ends here and the best seen before. -/
def longestRunAux (p : Char → Bool) : List Char → Nat → Nat → Nat
  | [], cur, best => max cur best
  | c :: cs, cur, best =>
    if p c then longestRunAux p cs (cur + 1) best
    else longestRunAux p cs 0 (max cur best)

/-- The length of the longest run of hexadecimal digits in a text. -/
def longestHexRun (s : String) : Nat :=
  longestRunAux isHexDigit s.toList 0 0

/-! ## Sample inputs -/

/-- The message of the spec's scenario: network 5, the C-Chain as source
chain, and the example bytes as payload. -/
def sampleUnsignedMessage : UnsignedMessage :=
  { networkID := 5
    sourceChainID := (idsFromString cChainID).1
    payload := exampleBytes }

/-- A signed-message sample of 34 bytes, long enough for the slice of
Example 1. -/
def sampleSignedMessage : String :=
  "0x0123456789abcdef0123456789abcdef"

/-- A validator set of total weight 100. -/
def sampleValidatorSet : ValidatorSet :=
  { validators :=
      [{ publicKey := [1], weight := 30 }, { publicKey := [2], weight := 36 },
       { publicKey := [3], weight := 1 }, { publicKey := [4], weight := 3 },
       { publicKey := [5], weight := 30 }]
    totalWeight := 100 }

/-- The sample message with a given signer bitset. -/
def signedBy (bits : List Bool) : SignedMessage :=
  { unsigned := sampleUnsignedMessage, signature := [], signerBitset := bits }

/-- A signature check that accepts. -/
def acceptSignature : List (List Nat) → List Nat → List Nat → Bool :=
  fun _ _ _ => true

/-! ## Theorems about the example program -/

set_option maxRecDepth 100000

/-- C1 (the code departs from the claim): the sample value of
`exampleSignedMessage` is 5 bytes long, so the slice `exampleSignedMessage[:20]`
is out of range.  Whatever `GetChainID` would return, `main` panics at that
expression after writing the banner of Example 1 only; the heading of
Example 2 is never written. -/
theorem main_panics_at_signed_message_slice :
    goLen exampleSignedMessage = 5 ∧
    sliceTo exampleSignedMessage 20 = none ∧
    (∀ r, main r = { events := mainBanner, outcome := Outcome.panicked }) ∧
    println "Example 2: Get All Received Messages" ∉ mainBanner := by
  refine ⟨by decide, by decide, fun r => rfl, by decide⟩

/-- C8: whatever `client.GetChainID` returns, an error or a result, a run of
`main` that reaches Example 2 (the slice of Example 1 being in range) makes the
call, only logs or prints its outcome, and returns normally after the same
statements: Examples 4 to 6, the workflow section, `showHexConversion`,
`showMessageIDComputation` and the closing lines, none of which depends on the
outcome. -/
theorem GetChainID_outcome_does_not_abort (sample truncated : String)
    (r : Except String ChainInfo) (hslice : sliceTo sample 20 = some truncated) :
    (mainWith sample r).outcome = Outcome.returned ∧
    (mainWith sample r).events =
      (mainBanner ++ printSignedMessage truncated :: mainExample2) ++
        Event.call ClientMethod.GetChainID :: (chainIDBranch r ++ mainAfterChainID) ∧
    (∀ e ∈ chainIDBranch r, (∃ t, e = Event.logged t) ∨ (∃ t, e = Event.stdout t)) ∧
    (∀ err, chainIDBranch (Except.error err) =
      [Event.logged ("⚠️  Failed to get chain ID: " ++ err ++ "\n")]) ∧
    mainAfterChainID <:+ (mainWith sample r).events ∧
    mainAfterChainID =
      mainExamples4to6 ++ mainWorkflow ++
        (println "\n=== Helper Functions ===\n" :: showHexConversion ++
          showMessageIDComputation ++
          [println "\nFor more examples, see:",
           println "  - RECEIVING_MESSAGES.md",
           println "  - examples/receive_examples.sh",
           println "  - contracts/WarpMessageSender.sol"]) ∧
    clientCalls mainAfterChainID = [] ∧
    (∀ reply, main reply = mainWith exampleSignedMessage reply) := by
  have hev : (mainWith sample r).events =
      (mainBanner ++ printSignedMessage truncated :: mainExample2) ++
        Event.call ClientMethod.GetChainID :: (chainIDBranch r ++ mainAfterChainID) := by
    simp [mainWith, hslice, mainFromExample2, List.append_assoc]
  refine ⟨?_, hev, ?_, fun _ => rfl, ?_, rfl, rfl, fun _ => rfl⟩
  · simp [mainWith, hslice]
  · intro e he
    cases r with
    | error err =>
      simp only [chainIDBranch, List.mem_singleton] at he
      exact Or.inl ⟨_, he⟩
    | ok info =>
      simp only [chainIDBranch, List.mem_cons, List.mem_singleton, List.not_mem_nil,
        or_false] at he
      rcases he with he | he | he
      · exact Or.inr ⟨_, he⟩
      · exact Or.inr ⟨_, he⟩
      · exact Or.inr ⟨_, he⟩
  · rw [hev]
    refine ⟨(mainBanner ++ printSignedMessage truncated :: mainExample2) ++
      Event.call ClientMethod.GetChainID :: chainIDBranch r, ?_⟩
    simp [List.append_assoc]

/-- Witness for C8 at a 34-byte sample: the slice of Example 1 is in range,
and the run returns normally and ends with the statements after Example 3,
both when `GetChainID` fails and when it succeeds. -/
theorem GetChainID_outcome_does_not_abort_witness :
    sliceTo sampleSignedMessage 20 = some "0x0123456789abcdef01" ∧
    (mainWith sampleSignedMessage (Except.error "connection refused")).outcome =
      Outcome.returned ∧
    mainAfterChainID <:+
      (mainWith sampleSignedMessage (Except.error "connection refused")).events ∧
    (mainWith sampleSignedMessage
      (Except.ok { ChainID := cChainID, NetworkID := 5 })).outcome = Outcome.returned ∧
    mainAfterChainID <:+
      (mainWith sampleSignedMessage
        (Except.ok { ChainID := cChainID, NetworkID := 5 })).events :=
  have h1 := GetChainID_outcome_does_not_abort sampleSignedMessage "0x0123456789abcdef01"
    (Except.error "connection refused") (by decide)
  have h2 := GetChainID_outcome_does_not_abort sampleSignedMessage "0x0123456789abcdef01"
    (Except.ok { ChainID := cChainID, NetworkID := 5 }) (by decide)
  ⟨by decide, h1.1, h1.2.2.2.2.1, h2.1, h2.2.2.2.2.1⟩

/-- C9: on every run of `main`, every call made on the API client is
`GetChainID`, there is at most one, and neither `ReceiveWarpMessage` nor
`SubmitMessage` is called.  The same holds for the statements from Example 2
on taken by themselves, which make exactly the one `GetChainID` call. -/
theorem main_only_calls_GetChainID (r : Except String ChainInfo) :
    (∀ m ∈ clientCalls (main r).events, m = ClientMethod.GetChainID) ∧
    (clientCalls (main r).events).length ≤ 1 ∧
    ClientMethod.ReceiveWarpMessage ∉ clientCalls (main r).events ∧
    ClientMethod.SubmitMessage ∉ clientCalls (main r).events ∧
    clientCalls (mainFromExample2 r) = [ClientMethod.GetChainID] := by
  have h : clientCalls (main r).events = [] := rfl
  refine ⟨?_, ?_, ?_, ?_, ?_⟩
  · simp [h]
  · simp [h]
  · simp [h]
  · simp [h]
  · cases r <;> rfl

/-- C3: `showHexConversion` writes the text line and then the hex line, which
is `0x` followed by two lowercase hex digits per byte of the example (38
digits for its 19 bytes); decoding the digits gives the bytes of the text. -/
theorem showHexConversion_hex_line :
    showHexConversion =
      [Event.stdout "Hex Conversion:\n",
       Event.stdout "---------------\n",
       Event.stdout "Text: Hello from C-Chain!\n",
       Event.stdout "Hex:  0x48656c6c6f2066726f6d20432d436861696e21\n\n"] ∧
    hexEncoded = "48656c6c6f2066726f6d20432d436861696e21" ∧
    exampleBytes.length = 19 ∧
    hexEncoded.length = 2 * exampleBytes.length ∧
    (∀ c ∈ hexEncoded.toList, c ∈ "0123456789abcdef".toList) ∧
    hexDecodeString hexEncoded = some exampleBytes ∧
    exampleBytes = goBytes "Hello from C-Chain!" ∧
    goString exampleBytes = "Hello from C-Chain!" := by
  refine ⟨by decide, by decide, by decide, by decide, by decide, by decide, rfl, by decide⟩

/-- C4: `json.MarshalIndent` returns no error for the example message, and the
text printed is an object with the members `networkID`, `sourceChainID` and
`payload`, in this order, with the number 5 and the two strings as values. -/
theorem exampleJSON_text :
    exampleMarshal = Except.ok
      "\x7b\n    \"networkID\": 5,\n    \"sourceChainID\": \"yH8D7ThNJkxmtkuv2jgBa4P1Rn3Qpr4pPr7QYNfcdoS6k6HWp\",\n    \"payload\": \"0x...\"\n  \x7d" ∧
    exampleMessage.fields =
      [("networkID", JSONValue.number 5),
       ("sourceChainID", JSONValue.string "yH8D7ThNJkxmtkuv2jgBa4P1Rn3Qpr4pPr7QYNfcdoS6k6HWp"),
       ("payload", JSONValue.string "0x...")] ∧
    showMessageIDComputation.getD 5 printlnEmpty = Event.stdout
      "Example unsigned message structure:\n\x7b\n    \"networkID\": 5,\n    \"sourceChainID\": \"yH8D7ThNJkxmtkuv2jgBa4P1Rn3Qpr4pPr7QYNfcdoS6k6HWp\",\n    \"payload\": \"0x...\"\n  \x7d\n" := by
  refine ⟨by rfl, by rfl, by decide⟩

/-- C10: the example message ID literal decodes without error to 32 bytes that
are not the all-zero ID, and formatting them gives the literal back, which is
what the `messageID:` line of Example 4 shows. -/
theorem exampleMessageID_text :
    (idsFromString "2HgU68fXLffrsXimkrSP4rmtSgEsbaCCNAvnH25JKCkQVXU1N1").2 = none ∧
    exampleMessageID =
      [0xa9, 0x92, 0x35, 0xdf, 0x40, 0x73, 0xab, 0xbb, 0x2b, 0x8c, 0x51, 0xdd, 0x3e, 0x8f,
       0xad, 0xec, 0x5b, 0x57, 0xb8, 0x7a, 0xa8, 0xfc, 0xff, 0x11, 0x3f, 0xc3, 0x14, 0x53,
       0x49, 0x49, 0xdd, 0x89] ∧
    exampleMessageID.length = 32 ∧
    exampleMessageID ≠ idsEmpty ∧
    idString exampleMessageID = "2HgU68fXLffrsXimkrSP4rmtSgEsbaCCNAvnH25JKCkQVXU1N1" ∧
    idString idsEmpty = "11111111111111111111111111111111LpoYY" ∧
    mainExamples4to6.getD 5 printlnEmpty =
      Event.stdout "  messageID: 2HgU68fXLffrsXimkrSP4rmtSgEsbaCCNAvnH25JKCkQVXU1N1\n\n" := by
  refine ⟨by decide, by decide, by decide, by decide, by decide, by decide, by decide⟩

theorem longestRunAux_mono (p : Char → Bool) (l : List Char) :
    ∀ cur best cur2 best2, cur ≤ cur2 → best ≤ best2 →
      longestRunAux p l cur best ≤ longestRunAux p l cur2 best2 := by
  induction l with
  | nil =>
    intro cur best cur2 best2 h1 h2
    simp only [longestRunAux]
    omega
  | cons c cs ih =>
    intro cur best cur2 best2 h1 h2
    simp only [longestRunAux]
    split
    · exact ih _ _ _ _ (by omega) h2
    · exact ih _ _ _ _ (Nat.le_refl 0) (by omega)

theorem longestRunAux_ge_cur (p : Char → Bool) (l : List Char) :
    ∀ cur best, cur ≤ longestRunAux p l cur best ∧ best ≤ longestRunAux p l cur best := by
  induction l with
  | nil =>
    intro cur best
    simp only [longestRunAux]
    omega
  | cons c cs ih =>
    intro cur best
    simp only [longestRunAux]
    split
    · have := ih (cur + 1) best
      omega
    · have := ih 0 (max cur best)
      omega

theorem longestRunAux_run (p : Char → Bool) (t : List Char) (n : List Char)
    (hn : ∀ c ∈ n, p c = true) :
    ∀ cur best, cur + n.length ≤ longestRunAux p (n ++ t) cur best := by
  induction n with
  | nil =>
    intro cur best
    simpa using (longestRunAux_ge_cur p t cur best).1
  | cons c cs ih =>
    intro cur best
    have hc : p c = true := hn c (List.mem_cons_self c cs)
    have h := ih (fun x hx => hn x (List.mem_cons_of_mem c hx)) (cur + 1) best
    have e : longestRunAux p (c :: cs ++ t) cur best =
        longestRunAux p (cs ++ t) (cur + 1) best := by
      simp [longestRunAux, hc]
    rw [e, List.length_cons]
    omega

theorem longestRunAux_skip (p : Char → Bool) (l : List Char) (s : List Char) :
    ∀ cur best, longestRunAux p l 0 0 ≤ longestRunAux p (s ++ l) cur best := by
  induction s with
  | nil =>
    intro cur best
    exact longestRunAux_mono p l 0 0 cur best (Nat.zero_le _) (Nat.zero_le _)
  | cons c cs ih =>
    intro cur best
    simp only [List.cons_append, longestRunAux]
    split
    · exact ih _ _
    · exact ih _ _

/-- A run of elements satisfying `p` that occurs in a text is no longer than
the longest such run of the text. -/
theorem length_le_longestRun_of_infix (p : Char → Bool) (n hay : List Char)
    (hn : ∀ c ∈ n, p c = true) (h : n <:+: hay) :
    n.length ≤ longestRunAux p hay 0 0 := by
  obtain ⟨s, t, rfl⟩ := h
  have h1 := longestRunAux_run p t n hn 0 0
  have h2 := longestRunAux_skip p (n ++ t) s 0 0
  rw [List.append_assoc]
  omega

theorem isHexDigit_hextable (i : Nat) : isHexDigit (hextable.getD i '0') = true := by
  by_cases h : i < 16
  · interval_cases i <;> rfl
  · have : hextable.length ≤ i := by
      have : hextable.length = 16 := rfl
      omega
    rw [List.getD_eq_default _ _ this]
    rfl

theorem hexEncodeToString_digits (src : List Nat) :
    (hexEncodeToString src).toList.length = 2 * src.length ∧
    ∀ c ∈ (hexEncodeToString src).toList, isHexDigit c = true := by
  have e : (hexEncodeToString src).toList =
      src.flatMap (fun v => [hextable.getD (v / 16) '0', hextable.getD (v % 16) '0']) := rfl
  rw [e]
  clear e
  induction src with
  | nil => simp
  | cons v vs ih =>
    rw [List.flatMap_cons]
    refine ⟨?_, ?_⟩
    · rw [List.length_append, ih.1]
      simp only [List.length_cons, List.length_nil]
      omega
    · intro c hc
      rw [List.mem_append] at hc
      rcases hc with hc | hc
      · simp only [List.mem_cons, List.mem_singleton, List.not_mem_nil, or_false] at hc
        rcases hc with hc | hc
        · rw [hc]
          exact isHexDigit_hextable _
        · rw [hc]
          exact isHexDigit_hextable _
      · exact ih.2 c hc

/-- C2 (the claim as stated fails): the output of `showMessageIDComputation`
does not include the SHA-256 digest of the serialized example message, neither
as hex digits, nor in the textual form of an identifier, nor as raw bytes. -/
theorem showMessageIDComputation_prints_no_digest :
    exampleJSONDigest.length = 32 ∧
    ¬ (hexEncodeToString exampleJSONDigest).toList <:+: messageIDOutput.toList ∧
    ¬ (idString exampleJSONDigest).toList <:+: messageIDOutput.toList ∧
    ¬ exampleJSONDigest <:+: goBytes messageIDOutput := by
  refine ⟨by decide, by decide, by decide, by decide⟩

/-- C2 (amended): `showMessageIDComputation` writes a fixed text: the heading,
the formula line `Message ID = SHA256(unsigned_warp_message_bytes)`, a remark
and the example message as JSON.  It computes no digest, and the text holds no
run of 64 hex digits, so the hex form of no 32-byte digest occurs in it. -/
theorem showMessageIDComputation_output :
    messageIDOutput =
      "Message ID Computation:\n-----------------------\nMessage ID = SHA256(unsigned_warp_message_bytes)\nThis ensures unique identification of each message\n\nExample unsigned message structure:\n\x7b\n    \"networkID\": 5,\n    \"sourceChainID\": \"yH8D7ThNJkxmtkuv2jgBa4P1Rn3Qpr4pPr7QYNfcdoS6k6HWp\",\n    \"payload\": \"0x...\"\n  \x7d\n\n" ∧
    println "Message ID = SHA256(unsigned_warp_message_bytes)" ∈ showMessageIDComputation ∧
    longestHexRun messageIDOutput < 64 ∧
    ∀ d : List Nat, d.length = 32 →
      ¬ (hexEncodeToString d).toList <:+: messageIDOutput.toList := by
  have hrun : longestHexRun messageIDOutput < 64 := by decide
  refine ⟨by decide, by decide, hrun, ?_⟩
  intro d hd hinf
  have h1 := hexEncodeToString_digits d
  have h2 := length_le_longestRun_of_infix isHexDigit _ _ h1.2 hinf
  rw [h1.1, hd] at h2
  unfold longestHexRun at hrun
  omega

/-! ## Theorems about the codec, the verifier and the store -/

theorem bigEndian_length (w n : Nat) : (bigEndian w n).length = w := by
  induction w with
  | zero => rfl
  | succ w ih => simp [bigEndian, ih]

theorem bigEndian_lt (w n : Nat) : ∀ b ∈ bigEndian w n, b < 256 := by
  induction w with
  | zero => simp [bigEndian]
  | succ w ih =>
    intro b hb
    simp only [bigEndian, List.mem_cons] at hb
    rcases hb with hb | hb
    · rw [hb]
      exact Nat.mod_lt _ (by norm_num)
    · exact ih b hb

theorem foldl_bigEndian (w n : Nat) :
    ∀ acc, (bigEndian w n).foldl (fun a b => a * 256 + b) acc = acc * 256 ^ w + n % 256 ^ w := by
  induction w with
  | zero =>
    intro acc
    simp [bigEndian, Nat.mod_one]
  | succ w ih =>
    intro acc
    simp only [bigEndian, List.foldl_cons]
    rw [ih, pow_succ, Nat.mod_mul]
    ring

theorem fromBigEndian_bigEndian (w n : Nat) (h : n < 256 ^ w) :
    fromBigEndian (bigEndian w n) = n := by
  unfold fromBigEndian
  rw [foldl_bigEndian, Nat.mod_eq_of_lt h]
  simp

/-- Decoding a frame: four bytes of network ID, 32 bytes of source chain ID, a
four-byte length and the rest succeeds exactly when the rest has the announced
length. -/
theorem Decode_frame (a n : Nat) (src rest : List Nat) (ha : a < 2 ^ 32) (hn : n < 2 ^ 32)
    (hsrc : src.length = 32) :
    Decode (bigEndian 4 a ++ (src ++ (bigEndian 4 n ++ rest))) =
      if rest.length = n then
        Except.ok { networkID := a, sourceChainID := src, payload := rest }
      else Except.error CodecError.MalformedMessage := by
  have hA : (bigEndian 4 a).length = 4 := bigEndian_length 4 a
  have hL : (bigEndian 4 n).length = 4 := bigEndian_length 4 n
  have h36 : (bigEndian 4 a ++ (src ++ (bigEndian 4 n ++ rest))).drop 36 =
      bigEndian 4 n ++ rest := by
    rw [← List.append_assoc]
    exact List.drop_left' (by simp [hA, hsrc])
  have h40 : (bigEndian 4 a ++ (src ++ (bigEndian 4 n ++ rest))).drop 40 = rest := by
    rw [← List.append_assoc, ← List.append_assoc]
    exact List.drop_left' (by simp [hA, hsrc, hL])
  have h4 : (bigEndian 4 a ++ (src ++ (bigEndian 4 n ++ rest))).drop 4 =
      src ++ (bigEndian 4 n ++ rest) := List.drop_left' hA
  have hlen : (bigEndian 4 a ++ (src ++ (bigEndian 4 n ++ rest))).length = 40 + rest.length := by
    simp [hA, hsrc, hL]
    omega
  have e1 : fromBigEndian (bigEndian 4 a) = a := fromBigEndian_bigEndian 4 a (by norm_num; omega)
  have e2 : fromBigEndian (bigEndian 4 n) = n := fromBigEndian_bigEndian 4 n (by norm_num; omega)
  unfold Decode
  rw [h36, h40, h4, List.take_left' hL, List.take_left' hA, List.take_left' hsrc, hlen, e1, e2]
  by_cases h : rest.length = n
  · simp [h]
  · simp only [h, if_false]
    have : ¬ (40 + rest.length < 40) := by omega
    simp only [this, if_false]
    by_cases h2 : rest.length < n
    · simp [h2]
    · have h3 : n < rest.length := by omega
      simp [h2, h3]

theorem take_append_of_le {α : Type} (l₁ l₂ : List α) (k : Nat) (h : l₁.length ≤ k) :
    (l₁ ++ l₂).take k = l₁ ++ l₂.take (k - l₁.length) := by
  rw [List.take_append_eq_append_take, List.take_of_length_le h]

theorem Encode_length (m : UnsignedMessage) (hm : m.Valid) :
    (Encode m).length = 40 + m.payload.length := by
  obtain ⟨_, hs, _, _, _⟩ := hm
  simp [Encode, bigEndian_length, hs]
  omega

/-- C5: for every valid unsigned message, decoding its encoding gives the
message back, and decoding fails with `MalformedMessage` on every proper
prefix of the encoding (truncated input), on the encoding with a length prefix
that differs from the payload length, and on the encoding followed by further
bytes. -/
theorem Decode_Encode (m : UnsignedMessage) (hm : m.Valid) :
    Decode (Encode m) = Except.ok m ∧
    (∀ k, k < (Encode m).length →
      Decode ((Encode m).take k) = Except.error CodecError.MalformedMessage) ∧
    (∀ n, n < 2 ^ 32 → n ≠ m.payload.length →
      Decode (bigEndian 4 m.networkID ++ (m.sourceChainID ++ (bigEndian 4 n ++ m.payload))) =
        Except.error CodecError.MalformedMessage) ∧
    (∀ extra, extra ≠ [] →
      Decode (Encode m ++ extra) = Except.error CodecError.MalformedMessage) := by
  have hlen := Encode_length m hm
  obtain ⟨hid, hs, _, hp, _⟩ := hm
  refine ⟨?_, ?_, ?_, ?_⟩
  · unfold Encode
    rw [Decode_frame _ _ _ _ hid hp hs]
    simp
  · intro k hk
    by_cases h40 : k < 40
    · have hl : ((Encode m).take k).length < 40 := by
        rw [List.length_take]
        omega
      unfold Decode
      rw [if_pos hl]
    · have hA : (bigEndian 4 m.networkID).length = 4 := bigEndian_length 4 _
      have hL : (bigEndian 4 m.payload.length).length = 4 := bigEndian_length 4 _
      have e : (Encode m).take k =
          bigEndian 4 m.networkID ++ (m.sourceChainID ++
            (bigEndian 4 m.payload.length ++ m.payload.take (k - 40))) := by
        unfold Encode
        rw [take_append_of_le _ _ _ (by omega), take_append_of_le _ _ _ (by omega),
          take_append_of_le _ _ _ (by omega), hA, hs, hL]
        have : k - 4 - 32 - 4 = k - 40 := by omega
        rw [this]
      rw [e, Decode_frame _ _ _ _ hid hp hs]
      have hne : (m.payload.take (k - 40)).length ≠ m.payload.length := by
        rw [List.length_take]
        omega
      rw [if_neg hne]
  · intro n hn hne
    rw [Decode_frame _ _ _ _ hid hn hs, if_neg (Ne.symm hne)]
  · intro extra hextra
    have e : Encode m ++ extra =
        bigEndian 4 m.networkID ++ (m.sourceChainID ++
          (bigEndian 4 m.payload.length ++ (m.payload ++ extra))) := by
      unfold Encode
      simp [List.append_assoc]
    rw [e, Decode_frame _ _ _ _ hid hp hs]
    have : 0 < extra.length := List.length_pos.mpr hextra
    have hne : (m.payload ++ extra).length ≠ m.payload.length := by
      rw [List.length_append]
      omega
    rw [if_neg hne]

/-- Witness for C5 at the sample message: it is valid, it decodes back from
its 59-byte encoding, and decoding fails on the first 58 bytes, on a length
prefix of 18 and with one byte appended. -/
theorem Decode_Encode_witness :
    sampleUnsignedMessage.Valid ∧
    Decode (Encode sampleUnsignedMessage) = Except.ok sampleUnsignedMessage ∧
    Decode ((Encode sampleUnsignedMessage).take 58) =
      Except.error CodecError.MalformedMessage ∧
    Decode (bigEndian 4 sampleUnsignedMessage.networkID ++
      (sampleUnsignedMessage.sourceChainID ++
        (bigEndian 4 18 ++ sampleUnsignedMessage.payload))) =
      Except.error CodecError.MalformedMessage ∧
    Decode (Encode sampleUnsignedMessage ++ [0]) =
      Except.error CodecError.MalformedMessage :=
  have h := Decode_Encode sampleUnsignedMessage (by decide)
  ⟨by decide, h.1, h.2.1 58 (by decide), h.2.2.1 18 (by decide) (by decide),
    h.2.2.2 [0] (by simp)⟩

theorem quorumThreshold_le_iff (tw qn qd w : Nat) (hqd : 0 < qd) :
    quorumThreshold tw qn qd ≤ w ↔ ¬ (w * qd < tw * qn) := by
  unfold quorumThreshold
  rw [← Nat.lt_succ_iff, Nat.div_lt_iff_lt_mul hqd, Nat.succ_mul]
  omega

/-- C6: when the signer bitset has the length of the validator set, `Verify`
rejects with `InsufficientWeight` exactly when
`verifiedWeight * quorumDenominator < totalWeight * quorumNumerator`;
otherwise the outcome is that of the signature check.  For a positive
denominator, a verified weight equal to the quorum threshold passes the weight
check and one unit less fails it. -/
theorem Verify_insufficientWeight_iff
    (blsVerify : List (List Nat) → List Nat → List Nat → Bool)
    (sm : SignedMessage) (vs : ValidatorSet) (quorumNumerator quorumDenominator : Nat)
    (hsize : sm.signerBitset.length = vs.validators.length) :
    (Verify blsVerify sm vs quorumNumerator quorumDenominator =
        Except.error VerifyError.InsufficientWeight ↔
      verifiedWeight sm.signerBitset vs.validators * quorumDenominator <
        vs.totalWeight * quorumNumerator) ∧
    (¬ (verifiedWeight sm.signerBitset vs.validators * quorumDenominator <
        vs.totalWeight * quorumNumerator) →
      Verify blsVerify sm vs quorumNumerator quorumDenominator =
        if blsVerify ((selectedValidators sm.signerBitset vs.validators).map
            (fun v => v.publicKey)) (Encode sm.unsigned) sm.signature then
          Except.ok (verifiedWeight sm.signerBitset vs.validators)
        else Except.error VerifyError.InvalidSignature) ∧
    (0 < quorumDenominator →
      verifiedWeight sm.signerBitset vs.validators =
        quorumThreshold vs.totalWeight quorumNumerator quorumDenominator →
      Verify blsVerify sm vs quorumNumerator quorumDenominator ≠
        Except.error VerifyError.InsufficientWeight) ∧
    (0 < quorumDenominator →
      verifiedWeight sm.signerBitset vs.validators + 1 =
        quorumThreshold vs.totalWeight quorumNumerator quorumDenominator →
      Verify blsVerify sm vs quorumNumerator quorumDenominator =
        Except.error VerifyError.InsufficientWeight) := by
  have hiff : Verify blsVerify sm vs quorumNumerator quorumDenominator =
        Except.error VerifyError.InsufficientWeight ↔
      verifiedWeight sm.signerBitset vs.validators * quorumDenominator <
        vs.totalWeight * quorumNumerator := by
    unfold Verify
    simp only [hsize, ne_eq, not_true_eq_false, if_false]
    by_cases hw : verifiedWeight sm.signerBitset vs.validators * quorumDenominator <
        vs.totalWeight * quorumNumerator
    · simp [hw]
    · simp only [hw, if_false, iff_false]
      split <;> simp
  refine ⟨hiff, ?_, ?_, ?_⟩
  · intro hw
    unfold Verify
    simp only [hsize, ne_eq, not_true_eq_false, if_false, hw]
  · intro hqd hw
    rw [Ne, hiff, ← quorumThreshold_le_iff _ _ _ _ hqd, hw]
  · intro hqd hw
    rw [hiff]
    have := (quorumThreshold_le_iff vs.totalWeight quorumNumerator quorumDenominator
      (verifiedWeight sm.signerBitset vs.validators) hqd).not
    rw [← hw] at this
    simpa using this

/-- Witness for C6 at quorum 67/100 over the sample validator set: signers of
weight 70 pass and are accepted, signers of weight 30 are rejected with
`InsufficientWeight`; weight 67, the threshold, passes and weight 66 fails. -/
theorem Verify_quorum_witness :
    Verify acceptSignature (signedBy [true, true, true, true, false]) sampleValidatorSet 67 100 =
      Except.ok 70 ∧
    Verify acceptSignature (signedBy [false, false, false, false, true]) sampleValidatorSet 67 100 =
      Except.error VerifyError.InsufficientWeight ∧
    quorumThreshold 100 67 100 = 67 ∧
    Verify acceptSignature (signedBy [true, true, true, false, false]) sampleValidatorSet 67 100 ≠
      Except.error VerifyError.InsufficientWeight ∧
    Verify acceptSignature (signedBy [true, true, false, false, false]) sampleValidatorSet 67 100 =
      Except.error VerifyError.InsufficientWeight :=
  ⟨(Verify_insufficientWeight_iff acceptSignature (signedBy [true, true, true, true, false])
      sampleValidatorSet 67 100 rfl).2.1 (by decide),
   (Verify_insufficientWeight_iff acceptSignature (signedBy [false, false, false, false, true])
      sampleValidatorSet 67 100 rfl).1.mpr (by decide),
   by decide,
   (Verify_insufficientWeight_iff acceptSignature (signedBy [true, true, true, false, false])
      sampleValidatorSet 67 100 rfl).2.2.1 (by decide) (by decide),
   (Verify_insufficientWeight_iff acceptSignature (signedBy [true, true, false, false, false])
      sampleValidatorSet 67 100 rfl).2.2.2 (by decide) (by decide)⟩

theorem Get_eq_none_iff (s : ReceiptStore) (id : List Nat) :
    Get s id = none ↔ ∀ x ∈ s, x.id ≠ id := by
  unfold Get
  simp [List.find?_eq_none]

theorem TryInsert_of_absent (s : ReceiptStore) (r : ReceivedMessageRecord)
    (h : ∀ x ∈ s, x.id ≠ r.id) : TryInsert s r = (s ++ [r], true) := by
  unfold TryInsert
  rw [(Get_eq_none_iff s r.id).mpr h]

theorem TryInsert_of_present (s : ReceiptStore) (r : ReceivedMessageRecord)
    (h : ¬ ∀ x ∈ s, x.id ≠ r.id) : TryInsert s r = (s, false) := by
  unfold TryInsert
  cases hg : Get s r.id with
  | none => exact absurd ((Get_eq_none_iff s r.id).mp hg) h
  | some y => rfl

theorem TryInsert_extends (s : ReceiptStore) (r : ReceivedMessageRecord) :
    s <+: (TryInsert s r).1 := by
  by_cases h : ∀ x ∈ s, x.id ≠ r.id
  · rw [TryInsert_of_absent s r h]
    exact List.prefix_append s [r]
  · rw [TryInsert_of_present s r h]

theorem TryInsert_nodup (s : ReceiptStore) (r : ReceivedMessageRecord)
    (hs : (s.map (fun x => x.id)).Nodup) :
    ((TryInsert s r).1.map (fun x => x.id)).Nodup := by
  by_cases h : ∀ x ∈ s, x.id ≠ r.id
  · rw [TryInsert_of_absent s r h]
    simp only [List.map_append, List.map_cons, List.map_nil]
    rw [List.nodup_append]
    refine ⟨hs, List.nodup_singleton _, ?_⟩
    intro a ha hb
    simp only [List.mem_singleton] at hb
    simp only [List.mem_map] at ha
    obtain ⟨x, hx, rfl⟩ := ha
    exact h x hx hb
  · rw [TryInsert_of_present s r h]
    exact hs

theorem insertAll_extends (rs : List ReceivedMessageRecord) :
    ∀ s : ReceiptStore, s <+: insertAll s rs := by
  induction rs with
  | nil =>
    intro s
    exact List.prefix_refl s
  | cons r rs ih =>
    intro s
    exact List.IsPrefix.trans (TryInsert_extends s r) (ih (TryInsert s r).1)

theorem insertAll_nodup (rs : List ReceivedMessageRecord) :
    ∀ s : ReceiptStore, (s.map (fun x => x.id)).Nodup →
      ((insertAll s rs).map (fun x => x.id)).Nodup := by
  induction rs with
  | nil =>
    intro s hs
    exact hs
  | cons r rs ih =>
    intro s hs
    exact ih (TryInsert s r).1 (TryInsert_nodup s r hs)

/-- C7: `TryInsert` returns `true` exactly when the store holds no record with
the same MessageID, and then appends the record; when it returns `false` the
store is unchanged, and so is it on a repeated insert.  After any sequence of
`TryInsert` calls, starting from the empty store, no two records share a
MessageID, and the records held before a further sequence of calls are still
there afterwards, at the front and in the same order. -/
theorem TryInsert_spec (s : ReceiptStore) (r : ReceivedMessageRecord)
    (history later : List ReceivedMessageRecord) :
    ((TryInsert s r).2 = true ↔ ∀ x ∈ s, x.id ≠ r.id) ∧
    ((TryInsert s r).2 = false → (TryInsert s r).1 = s) ∧
    ((TryInsert s r).2 = true → (TryInsert s r).1 = s ++ [r]) ∧
    TryInsert (TryInsert s r).1 r = ((TryInsert s r).1, false) ∧
    ((insertAll [] history).map (fun x => x.id)).Nodup ∧
    ((s.map (fun x => x.id)).Nodup → ((insertAll s later).map (fun x => x.id)).Nodup) ∧
    ListAll s <+: ListAll (insertAll s later) := by
  refine ⟨?_, ?_, ?_, ?_, ?_, ?_, ?_⟩
  · by_cases h : ∀ x ∈ s, x.id ≠ r.id
    · rw [TryInsert_of_absent s r h]
      simpa using h
    · rw [TryInsert_of_present s r h]
      simpa using h
  · by_cases h : ∀ x ∈ s, x.id ≠ r.id
    · rw [TryInsert_of_absent s r h]
      simp
    · rw [TryInsert_of_present s r h]
      simp
  · by_cases h : ∀ x ∈ s, x.id ≠ r.id
    · rw [TryInsert_of_absent s r h]
      simp
    · rw [TryInsert_of_present s r h]
      simp
  · apply TryInsert_of_present
    by_cases h : ∀ x ∈ s, x.id ≠ r.id
    · rw [TryInsert_of_absent s r h]
      intro hall
      exact hall r (by simp) rfl
    · rw [TryInsert_of_present s r h]
      exact h
  · exact insertAll_nodup history [] List.nodup_nil
  · exact insertAll_nodup later s
  · exact insertAll_extends later s

end WarpReceiveExample
